import Mathlib

/-!
Verification of the jobworkerp MCP proxy gateway.

This file gives a shallow embedding of the proxy's core logic:

* the composite-name codec (`combine_names` / `divide_names`,
  `src/proxy-server/src/jobworkerp.rs` and `src/proxy-server/src/tool_conversion.rs`),
* the argument-normalization heuristic
  (`parse_as_json_and_string_with_key_or_noop`),
* the tool-catalog projection (`convert_functions_to_mcp_tools`),
* the `call_tool` dispatcher with its four handling strategies
  (`handle_reusable_workflow`, `handle_runner_call`, `handle_worker_call`).

External collaborators (the Job Engine RPC client and the serde JSON/YAML
parsers) are modelled as function parameters: `fr`/`fw` for the backend
runner/worker lookups (`Except` captures their fallibility) and `pj`/`py`
for `serde_json::from_str` / `serde_yaml::from_str` returning an `Option`
of the parsed value.  JSON values are a standard inductive; numbers are
modelled as integers, which is enough for every property considered here
(no property depends on float formatting).
-/

namespace McpProxy

/-- A JSON value, as produced/consumed by the gateway.  Objects are ordered
field lists, matching the serialization order used by the code. -/
inductive Json where
  | null
  | bool (b : Bool)
  | num (n : Int)
  | str (s : String)
  | arr (elems : List Json)
  | obj (fields : List (String × Json))
deriving Repr

/-- A `serde_json::Map<String, Value>` as used by the gateway. -/
abbrev JsonMap := List (String × Json)

/-- `Map::get`: the value bound to `key`, if any. -/
def lookupKey (key : String) : JsonMap → Option Json
  | [] => none
  | (k, v) :: rest => if k = key then some v else lookupKey key rest

/-- The map with the binding for `key` removed (the residue of `Map::remove`). -/
def eraseKey (key : String) : JsonMap → JsonMap
  | [] => []
  | (k, v) :: rest => if k = key then eraseKey key rest else (k, v) :: eraseKey key rest

/-- `Value::is_object` combined with the non-emptiness test used by the code:
`v.is_object() && v.as_object().is_some_and(|o| !o.is_empty())`. -/
def isNonEmptyObj : Json → Bool
  | .obj (_ :: _) => true
  | _ => false

/-- `Value::as_object().cloned().unwrap_or_default()`: the object's fields, or
the empty map for any non-object. -/
def objFields : Json → JsonMap
  | .obj fs => fs
  | _ => []

/-- `Value::is_object`. -/
def Json.isObj : Json → Bool
  | .obj _ => true
  | _ => false

/-- Serialization of one character per serde_json's compact escaping rules:
quote and backslash are escaped, the five short control escapes are used for
backspace, form feed, newline, carriage return and tab, any other control
character below U+0020 becomes a `\u00XX` escape, everything else is literal. -/
def escChar (c : Char) : List Char :=
  if c = '"' then ['\\', '"']
  else if c = '\\' then ['\\', '\\']
  else if c = Char.ofNat 8 then ['\\', 'b']
  else if c = Char.ofNat 12 then ['\\', 'f']
  else if c = '\n' then ['\\', 'n']
  else if c = '\r' then ['\\', 'r']
  else if c = '\t' then ['\\', 't']
  else if c.toNat < 32 then
    let hexDigit : Nat → Char := fun n => if n < 10 then Char.ofNat (48 + n) else Char.ofNat (87 + n)
    ['\\', 'u', '0', '0', hexDigit (c.toNat / 16), hexDigit (c.toNat % 16)]
  else [c]

/-- String-body serialization per serde_json (without the surrounding quotes). -/
def escapeStr (s : String) : String :=
  ⟨(s.toList.map escChar).flatten⟩

mutual
/-- `serde_json::to_string`: compact rendering with no extra whitespace. -/
def Json.render : Json → String
  | .null => "null"
  | .bool true => "true"
  | .bool false => "false"
  | .num n => toString n
  | .str s => "\"" ++ escapeStr s ++ "\""
  | .arr es => "[" ++ renderElems es ++ "]"
  | .obj fs => "\x7b" ++ renderFields fs ++ "\x7d"

/-- Comma-separated rendering of array elements. -/
def renderElems : List Json → String
  | [] => ""
  | [e] => Json.render e
  | e :: es => Json.render e ++ "," ++ renderElems es

/-- Comma-separated rendering of object members. -/
def renderFields : List (String × Json) → String
  | [] => ""
  | [(k, v)] => "\"" ++ escapeStr k ++ "\":" ++ Json.render v
  | (k, v) :: fs => "\"" ++ escapeStr k ++ "\":" ++ Json.render v ++ "," ++ renderFields fs
end

/-- `serde_json::to_value` on an `Option<String>`: `None` serializes to null. -/
def optStrToJson : Option String → Json
  | some s => .str s
  | none => .null

/-! ### Data model: runners and workers (jobworkerp proto projections)

Only the fields this gateway reads are modelled: `RunnerData.name` and
`RunnerData.runner_type` (the remaining proto fields are consumed solely by
the external descriptor utilities), and a `WorkerData` projection with the
fields the dispatcher inspects. -/

/-- Runner categories distinguished by the gateway; every category the code
does not special-case behaves like `Command`. -/
inductive RunnerType where
  | Command
  | McpServer
  | ReusableWorkflow
deriving Repr, DecidableEq

/-- The slice of `RunnerData` that the gateway reads. -/
structure RunnerData where
  name : String
  runner_type : RunnerType
deriving Repr, DecidableEq

/-- `Runner` from the proto: both the id and the payload are optional. -/
structure Runner where
  id : Option Int
  data : Option RunnerData
deriving Repr, DecidableEq

/-- The slice of `WorkerData` that the dispatcher reads (`runner_id.value`
is flattened into an optional integer). -/
structure WorkerData where
  name : String
  description : String
  runner_id : Option Int
deriving Repr, DecidableEq

/-! ### NameCodec: the `server___tool` composite naming convention -/

/-- `JobworkerpRouter::DELIMITER` / `ToolConverter::DELIMITER`. -/
def DELIMITER : String := "___"

/-- `combine_names` (`jobworkerp.rs:194`, `tool_conversion.rs:21`):
`format!("\x7b\x7d\x7b\x7d\x7b\x7d", server_name, DELIMITER, tool_name)`. -/
def combine_names (server_name tool_name : String) : String :=
  server_name ++ DELIMITER ++ tool_name

/-- Rust `str::split("___")` over the character list: scan left to right and
cut at every non-overlapping occurrence of the three-underscore delimiter.
Always returns at least one piece; splitting the empty string yields `[[]]`. -/
def splitDelim : List Char → List (List Char)
  | [] => [[]]
  | [c] => [[c]]
  | [c, d] => [[c, d]]
  | c :: d :: e :: rest =>
    if c = '_' ∧ d = '_' ∧ e = '_' then [] :: splitDelim rest
    else
      match splitDelim (d :: e :: rest) with
      | [] => [[c]]
      | p :: ps => (c :: p) :: ps

/-- Whether the three-underscore delimiter occurs anywhere in the string. -/
def containsDelim : List Char → Bool
  | [] => false
  | [_] => false
  | [_, _] => false
  | c :: d :: e :: rest =>
    decide (c = '_' ∧ d = '_' ∧ e = '_') || containsDelim (d :: e :: rest)

/-- String-level wrapper of `splitDelim`: `combined.split(DELIMITER).collect()`. -/
def splitDelimS (s : String) : List String :=
  (splitDelim s.toList).map (fun l => (⟨l⟩ : String))

/-- `divide_names` (`jobworkerp.rs:197`, `tool_conversion.rs:25`): fewer than
two pieces is a parse failure; exactly two pieces form the pair; with more
pieces the first is the server name and the rest are rejoined with the
delimiter (the source pops the front and re-reduces with the delimiter). -/
def divide_names (combined : String) : Option (String × String) :=
  match splitDelimS combined with
  | [] => none
  | [_] => none
  | [a, b] => some (a, b)
  | a :: rest => some (a, String.intercalate DELIMITER rest)

/-! ### ArgumentNormalizer -/

/-- `parse_as_json_and_string_with_key_or_noop` (`jobworkerp.rs:117`,
`jobworkerp/repository.rs:45`).  Removes `key` from the map; a removed
non-empty object replaces the map wholesale; a removed non-empty string is
parsed as JSON, then as YAML, and a resulting non-empty object replaces the
map wholesale; every other situation keeps the map (with the key removed)
and the function only ever returns `Ok`.  `pj`/`py` stand for
`serde_json::from_str` / `serde_yaml::from_str`. -/
def parse_as_json_and_string_with_key_or_noop (pj py : String → Option Json)
    (key : String) (value : JsonMap) : Except String JsonMap :=
  match lookupKey key value with
  | some candidate_value =>
    let residue := eraseKey key value
    if isNonEmptyObj candidate_value then .ok (objFields candidate_value)
    else
      match candidate_value with
      | .str s =>
        if s = "" then .ok residue
        else
          match (pj s).orElse (fun _ => py s) with
          | some parsed_value =>
            if isNonEmptyObj parsed_value then .ok (objFields parsed_value)
            else .ok residue
          | none => .ok residue
      | _ => .ok residue
  | none => .ok value

/-- `parse_arguments_for_reusable_workflow` (`jobworkerp.rs:186`,
`jobworkerp/repository.rs:112`): chain the noop-extraction under
`"arguments"`, then `"settings"`, then `"workflow_data"`. -/
def parse_arguments_for_reusable_workflow (pj py : String → Option Json)
    (arguments : JsonMap) : Except String JsonMap := do
  let a ← parse_as_json_and_string_with_key_or_noop pj py "arguments" arguments
  let a ← parse_as_json_and_string_with_key_or_noop pj py "settings" a
  parse_as_json_and_string_with_key_or_noop pj py "workflow_data" a

/-! ### SchemaCombiner

The `crate::common::jsonrpc::SchemaCombiner` source is not part of the
repository slice under verification (only its call sites are), so it is
modelled from the specification. -/

/-- Modelled from the spec: `SchemaCombiner` accumulates named JSON schemas
(the source module `crate::common::jsonrpc` is missing from the slice); each
entry keeps its key, parsed schema, and optional description in insertion
order. -/
structure SchemaCombiner where
  entries : List (String × Json × Option String)
deriving Repr

/-- Modelled from the spec: `addNamed(key, schemaText, description)` fails
with a SchemaError if `schemaText` does not parse as JSON, otherwise appends
the named schema in insertion order. -/
def add_schema_from_string (pj : String → Option Json) (c : SchemaCombiner)
    (key text : String) (description : Option String) :
    Except String SchemaCombiner :=
  match pj text with
  | some schema => .ok ⟨c.entries ++ [(key, schema, description)]⟩
  | none => .error "SchemaError"

/-- Modelled from the spec: a sub-schema optionally annotated with its
description. -/
def annotateSchema : Json → Option String → Json
  | .obj fs, some d => .obj (fs ++ [("description", .str d)])
  | j, _ => j

/-- Modelled from the spec: `combine()` produces a single object schema whose
`properties` map has one entry per added key in insertion order; an empty
combiner yields an empty object schema and combination never fails. -/
def generate_combined_schema (c : SchemaCombiner) : Except String JsonMap :=
  .ok [("type", .str "object"),
       ("properties", .obj (c.entries.map (fun e => (e.1, annotateSchema e.2.1 e.2.2))))]

/-! ### ToolCatalogProjector -/

/-- The single-schema payload of a `FunctionSpecs` (settings + arguments texts). -/
structure FunctionSchema where
  settings : Option String
  arguments : String
deriving Repr

/-- A federated tool descriptor (`McpTool`). -/
structure McpTool where
  name : String
  description : Option String
  input_schema : String
deriving Repr

/-- `function_specs::Schema`: either a settings/arguments pair or a federated
tool list. -/
inductive FSchema where
  | SingleSchema (f : FunctionSchema)
  | McpTools (list : List McpTool)
deriving Repr

/-- The slice of `FunctionSpecs` read by the projection. -/
structure FunctionSpecs where
  runner_type : RunnerType
  worker_id : Option Int
  name : String
  description : String
  schema : Option FSchema
deriving Repr

/-- An advertised MCP tool (`rmcp::model::Tool`): name, description and the
input schema as a JSON object map. -/
structure Tool where
  name : String
  description : String
  input_schema : JsonMap
deriving Repr

/-- The fixed creation-tool description (`CREATION_TOOL_DESCRIPTION`). -/
def CREATION_TOOL_DESCRIPTION : String :=
  "Create Tools from workflow definitions provided as JSON. The workflow definition must:

- Conform to the specified JSON schema
- Include an input schema section that defines the parameters created workflow Tool will accept
- When this workflow is executed as a Tool, it will receive parameters matching this input schema
- Specify execution steps that utilize any available runner(function) in the system (except this creation Tool)"

/-- The reusable-workflow branch of the projection (`jobworkerp.rs:526`,
`tool_conversion.rs:47`): one creation tool whose input schema is the
settings text parsed as JSON with YAML fallback, defaulting to an empty
object. -/
def convert_reusable_workflow (pj py : String → Option Json)
    (tool : FunctionSpecs) : Tool :=
  let schemaJson : Option Json :=
    tool.schema.bind (fun s =>
      match s with
      | .SingleSchema f =>
        f.settings.bind (fun text => (pj text).orElse (fun _ => py text))
      | .McpTools _ => none)
  ⟨tool.name, CREATION_TOOL_DESCRIPTION, objFields (schemaJson.getD (.obj []))⟩

/-- The federated-server branch of the projection (`jobworkerp.rs:565`,
`tool_conversion.rs:79`): one tool per federated entry under the combined
name; a single-schema payload or a missing schema contributes zero tools. -/
def convert_mcp_server (pj : String → Option Json) (tool : FunctionSpecs) :
    List Tool :=
  match tool.schema with
  | some (.McpTools list) =>
    list.map (fun t =>
      ⟨combine_names tool.name t.name, t.description.getD "",
        objFields ((pj t.input_schema).getD (.obj []))⟩)
  | some (.SingleSchema _) => []
  | none => []

/-- The standard branch of the projection (`jobworkerp.rs:594`,
`tool_conversion.rs:107`): add the settings schema (when present) and the
arguments schema to a fresh combiner — each `add` failure is logged and
absorbed via `.ok()` — then emit one tool from the combined schema, or none
if combination fails. -/
def convert_normal_function (pj : String → Option Json)
    (tool : FunctionSpecs) : Option Tool :=
  let c0 : SchemaCombiner := ⟨[]⟩
  let settingsText : Option String :=
    tool.schema.bind (fun s =>
      match s with
      | .SingleSchema f => f.settings
      | .McpTools _ => none)
  let c1 :=
    match settingsText with
    | some s =>
      match add_schema_from_string pj c0 "settings" s (some "Tool init settings") with
      | .ok c => c
      | .error _ => c0
    | none => c0
  let argsText : Option String :=
    tool.schema.map (fun s =>
      match s with
      | .SingleSchema f => f.arguments
      | .McpTools _ => "")
  let c2 :=
    match argsText with
    | some a =>
      match add_schema_from_string pj c1 "arguments" a (some "Tool arguments") with
      | .ok c => c
      | .error _ => c1
    | none => c1
  match generate_combined_schema c2 with
  | .ok schema => some ⟨tool.name, tool.description, schema⟩
  | .error _ => none

/-- The full catalog projection (`list_tools` body in `jobworkerp.rs:520` and
`convert_functions_to_mcp_tools` in `tool_conversion.rs:160`): branch per
entry on category and flatten. -/
def convert_functions_to_mcp_tools (pj py : String → Option Json)
    (functions : List FunctionSpecs) : List Tool :=
  functions.flatMap (fun tool =>
    if tool.worker_id = none ∧ tool.runner_type = RunnerType.ReusableWorkflow then
      [convert_reusable_workflow pj py tool]
    else if tool.runner_type = RunnerType.McpServer then
      convert_mcp_server pj tool
    else
      (convert_normal_function pj tool).toList)

/-! ### Dispatcher: the call-tool state machine -/

/-- An incoming `call_tool` request: a name and an optional argument map. -/
structure CallToolRequestParam where
  name : String
  arguments : Option JsonMap
deriving Repr

/-- The terminal action of one `call_tool` dispatch.  Backend effects are cut
off at the point the gateway hands over to the Job Engine client:
`provision` records the find-or-create inputs derived by
`handle_reusable_workflow`/`create_workflow`, `enqueueRunner` and
`enqueueWorker` record the shaped enqueue, `invalidParams` and
`methodNotFound` are the protocol errors, and `panic` marks the unreachable
`unwrap` of a missing runner payload. -/
inductive Dispatch where
  | provision (runner_id : Int) (runner_data : RunnerData)
      (worker_name worker_description : String) (definition : JsonMap)
  | enqueueRunner (runner_name : String) (settings : Option Json) (arguments : Json)
  | enqueueWorker (worker : WorkerData) (arguments : Json)
  | invalidParams
  | methodNotFound
  | panic
deriving Repr

/-- `find_runner_by_name_with_mcp` (`jobworkerp.rs:217`): exact runner lookup
first; on a clean miss, split the composite name and look the server prefix
up as a runner, pairing it with the tool suffix; backend errors propagate. -/
def find_runner_by_name_with_mcp (fr : String → Except String (Option Runner))
    (name : String) : Except String (Option (Runner × Option String)) :=
  match fr name with
  | .ok (some runner) => .ok (some (runner, none))
  | .ok none =>
    match divide_names name with
    | some (server_name, tool_name) =>
      (fr server_name).map (fun res => res.map (fun r => (r, some tool_name)))
    | none => .ok none
  | .error e => .error e

/-- `find_worker_by_name_with_mcp` (`jobworkerp.rs:243`): the worker-namespace
mirror of the runner lookup. -/
def find_worker_by_name_with_mcp (fw : String → Except String (Option WorkerData))
    (name : String) : Except String (Option (WorkerData × Option String)) :=
  match fw name with
  | .ok (some worker) => .ok (some (worker, none))
  | .ok none =>
    match divide_names name with
    | some (server_name, tool_name) =>
      (fw server_name).map (fun res => res.map (fun w => (w, some tool_name)))
    | none => .ok none
  | .error e => .error e

/-- `handle_reusable_workflow` (`jobworkerp.rs:270`): normalize the request
arguments (absent arguments stay absent; the normalizer itself never fails),
then derive the worker name and description from the optional
`document.name` / `document.summary` and hand the full normalized document
to `create_workflow`'s find-or-create; with no arguments the call is an
invalid-params protocol error. -/
def handle_reusable_workflow (pj py : String → Option Json)
    (request : CallToolRequestParam) (runner_id : Int)
    (runner_data : RunnerData) : Dispatch :=
  match request.arguments.bind
      (fun a => (parse_arguments_for_reusable_workflow pj py a).toOption) with
  | some arguments =>
    let document := lookupKey "document" arguments
    let name :=
      ((document.bind (fun t => lookupKey "name" (objFields t))).bind
        (fun t => match t with | .str s => some s | _ => none)).getD runner_data.name
    let description :=
      ((document.bind (fun d => lookupKey "summary" (objFields d))).bind
        (fun d => match d with | .str s => some s | _ => none)).getD ""
    .provision runner_id runner_data name description arguments
  | none => .invalidParams


/-- Whether the runner payload marks a federated MCP server
(`runner.data.as_ref().is_some_and(|r| r.runner_type() == RunnerType::McpServer)`). -/
def runnerIsMcp (runner : Runner) : Bool :=
  match runner.data with
  | some d => d.runner_type = RunnerType.McpServer
  | none => false

/-- `prepare_runner_call_arguments` (`jobworkerp/repository.rs:268`, inlined in
`handle_runner_call` at `jobworkerp.rs:340`): the settings override is the
request's top-level `"settings"` value; for a federated MCP target the
enqueue arguments wrap the federated tool name together with the whole
incoming argument object serialized to a JSON string, otherwise they are the
request's `"arguments"` value (null when absent). -/
def prepare_runner_call_arguments (request_args : JsonMap) (runner : Runner)
    (tool_name_opt : Option String) : Option Json × Json :=
  let settings := lookupKey "settings" request_args
  let arguments :=
    if runnerIsMcp runner then
      Json.obj [("tool_name", optStrToJson tool_name_opt),
                ("arg_json", .str (Json.render (.obj request_args)))]
    else
      (lookupKey "arguments" request_args).getD .null
  (settings, arguments)

/-- `handle_runner_call` (`jobworkerp.rs:333`): shape the settings and
arguments, then enqueue against the runner's name — obtained by an
unconditional `unwrap` of the runner payload, which panics when the payload
is absent. -/
def handle_runner_call (request : CallToolRequestParam) (runner : Runner)
    (tool_name_opt : Option String) : Dispatch :=
  let request_args := request.arguments.getD []
  let sa := prepare_runner_call_arguments request_args runner tool_name_opt
  match runner.data with
  | some d => .enqueueRunner d.name sa.1 sa.2
  | none => .panic

/-- `prepare_worker_call_arguments` (`jobworkerp/repository.rs:334`, inlined
in `handle_worker_call` at `jobworkerp.rs:410`): the raw `"arguments"` value
(null when absent); a negative bound runner id means a reusable-workflow
instance and wraps the stringified arguments under `"input"`; otherwise a
federated suffix wraps them as a tool call; otherwise they pass unchanged. -/
def prepare_worker_call_arguments (request_args : JsonMap)
    (worker_data : WorkerData) (tool_name_opt : Option String) : Json :=
  let args := (lookupKey "arguments" request_args).getD .null
  if (worker_data.runner_id.map (fun id => decide (id < 0))).getD false then
    .obj [("input", .str args.render)]
  else
    match tool_name_opt with
    | some tool_name => .obj [("tool_name", .str tool_name), ("arg_json", args)]
    | none => args

/-- `handle_worker_call` (`jobworkerp.rs:391`): resolve the worker (with the
composite fallback); a lookup failure or a miss is a method-not-found
protocol error; otherwise shape the arguments and enqueue against the bound
worker. -/
def handle_worker_call (fw : String → Except String (Option WorkerData))
    (request : CallToolRequestParam) : Dispatch :=
  let request_args := request.arguments.getD []
  match find_worker_by_name_with_mcp fw request.name with
  | .error _ => .methodNotFound
  | .ok none => .methodNotFound
  | .ok (some (worker_data, tool_name_opt)) =>
    .enqueueWorker worker_data
      (prepare_worker_call_arguments request_args worker_data tool_name_opt)

/-- `call_tool` (`jobworkerp.rs:467`): resolve the name through the runner
namespace; a complete runner payload of the reusable-workflow category goes
to workflow provisioning (discarding any composite suffix), any other runner
match goes to the runner invocation, a clean miss falls back to the worker
namespace, and a lookup error is reported as method-not-found. -/
def call_tool (pj py : String → Option Json)
    (fr : String → Except String (Option Runner))
    (fw : String → Except String (Option WorkerData))
    (request : CallToolRequestParam) : Dispatch :=
  match find_runner_by_name_with_mcp fr request.name with
  | .ok (some (runner, tool_name_opt)) =>
    match runner with
    | ⟨some rid, some rdata⟩ =>
      if rdata.runner_type = RunnerType.ReusableWorkflow then
        handle_reusable_workflow pj py request rid rdata
      else
        handle_runner_call request ⟨some rid, some rdata⟩ tool_name_opt
    | _ => handle_runner_call request runner tool_name_opt
  | .ok none => handle_worker_call fw request
  | .error _ => .methodNotFound

/-! ### Concrete fixtures

A small concrete backend and catalog used by the witness and counterexample
theorems below: stand-ins for the serde parsers defined on the texts the
scenarios use, and a runner namespace holding one standard runner, one
federated MCP server, one reusable-workflow runner, and one runner whose
payload is absent. -/

/-- A concrete stand-in for `serde_json::from_str`, defined on the schema
texts used in the concrete scenarios. -/
def pjDemo : String → Option Json := fun s =>
  if s = "\x7b\"type\":\"object\"\x7d" then some (.obj [("type", .str "object")])
  else none

/-- A concrete stand-in for `serde_yaml::from_str` that parses nothing. -/
def pyDemo : String → Option Json := fun _ => none

/-- The standard runner `"echo"` of the concrete catalog. -/
def rdEcho : RunnerData := ⟨"echo", .Command⟩

/-- The federated MCP-server runner `"weather"` of the concrete catalog. -/
def rdWeather : RunnerData := ⟨"weather", .McpServer⟩

/-- The reusable-workflow runner `"make_workflow"` of the concrete catalog. -/
def rdWorkflow : RunnerData := ⟨"make_workflow", .ReusableWorkflow⟩

/-- The concrete runner namespace: `"echo"`, `"weather"`, `"make_workflow"`,
and a `"broken"` runner carrying no payload. -/
def frDemo : String → Except String (Option Runner) := fun name =>
  if name = "echo" then .ok (some ⟨some 1, some rdEcho⟩)
  else if name = "weather" then .ok (some ⟨some 2, some rdWeather⟩)
  else if name = "make_workflow" then .ok (some ⟨some 3, some rdWorkflow⟩)
  else if name = "broken" then .ok (some ⟨some 4, none⟩)
  else .ok none

/-- The concrete worker namespace: empty. -/
def fwDemo : String → Except String (Option WorkerData) := fun _ => .ok none

/-- A catalog entry whose arguments schema text parses as JSON. -/
def goodSpec : FunctionSpecs :=
  ⟨.Command, none, "good", "a good entry",
    some (.SingleSchema ⟨none, "\x7b\"type\":\"object\"\x7d"⟩)⟩

/-- A catalog entry whose arguments schema text is malformed JSON. -/
def badSpec : FunctionSpecs :=
  ⟨.Command, none, "bad", "a bad entry", some (.SingleSchema ⟨none, "not json"⟩)⟩

/-! ### Supporting lemmas: maps -/

/-- A successful lookup pinpoints an entry of the map. -/
theorem lookupKey_mem {key : String} {v : Json} :
    ∀ (m : JsonMap), lookupKey key m = some v → (key, v) ∈ m := by
  intro m h
  induction m with
  | nil => simp [lookupKey] at h
  | cons p rest ih =>
    obtain ⟨k, w⟩ := p
    rw [lookupKey] at h
    by_cases hk : k = key
    · rw [if_pos hk] at h
      cases h
      subst hk
      exact List.mem_cons_self _ _
    · exact List.mem_cons_of_mem _ (ih (by rwa [if_neg hk] at h))

/-- Erasing an absent key leaves the map untouched. -/
theorem eraseKey_of_lookup_none {key : String} :
    ∀ (m : JsonMap), lookupKey key m = none → eraseKey key m = m := by
  intro m h
  induction m with
  | nil => rfl
  | cons p rest ih =>
    obtain ⟨k, w⟩ := p
    rw [lookupKey] at h
    by_cases hk : k = key
    · rw [if_pos hk] at h; cases h
    · rw [eraseKey, if_neg hk, ih (by rwa [if_neg hk] at h)]

/-! ### Supporting lemmas: the normalizer is total -/

/-- The noop-extraction returns `Ok` on every input. -/
theorem parse_noop_isOk (pj py : String → Option Json) (key : String) (value : JsonMap) :
    ∃ m, parse_as_json_and_string_with_key_or_noop pj py key value = .ok m := by
  unfold parse_as_json_and_string_with_key_or_noop
  repeat' split
  all_goals exact ⟨_, rfl⟩

/-- The three-step workflow normalization returns `Ok` on every input. -/
theorem parse_arguments_isOk (pj py : String → Option Json) (m : JsonMap) :
    ∃ m3, parse_arguments_for_reusable_workflow pj py m = .ok m3 := by
  unfold parse_arguments_for_reusable_workflow
  obtain ⟨m1, h1⟩ := parse_noop_isOk pj py "arguments" m
  obtain ⟨m2, h2⟩ := parse_noop_isOk pj py "settings" m1
  obtain ⟨m3, h3⟩ := parse_noop_isOk pj py "workflow_data" m2
  exact ⟨m3, by simp only [bind, Except.bind, h1, h2, h3]⟩

/-! ### Supporting lemmas: the splitter -/

/-- Splitting a string that starts with the delimiter cuts an empty piece. -/
theorem splitDelim_delim_cons (t : List Char) :
    splitDelim ('_' :: '_' :: '_' :: t) = [] :: splitDelim t := by
  simp [splitDelim]

/-- The splitter always produces at least one piece. -/
theorem splitDelim_ne_nil (s : List Char) : splitDelim s ≠ [] := by
  induction s using splitDelim.induct with
  | case1 => simp [splitDelim]
  | case2 c => simp [splitDelim]
  | case3 c d => simp [splitDelim]
  | case4 c d e rest hcond ih => simp [splitDelim, hcond]
  | case5 c d e rest hcond heq ih => exact absurd heq ih
  | case6 c d e rest hcond p ps heq ih => simp [splitDelim, hcond, heq]

/-- A delimiter-free string splits into the single piece it is. -/
theorem splitDelim_of_not_contains (s : List Char) :
    containsDelim s = false → splitDelim s = [s] := by
  induction s using splitDelim.induct with
  | case1 => intro h; rfl
  | case2 c => intro h; rfl
  | case3 c d => intro h; rfl
  | case4 c d e rest hcond ih =>
    intro h
    simp [containsDelim, hcond] at h
  | case5 c d e rest hcond heq ih =>
    exact absurd heq (splitDelim_ne_nil _)
  | case6 c d e rest hcond p ps heq ih =>
    intro h
    simp only [containsDelim, Bool.or_eq_false_iff, decide_eq_false_iff_not] at h
    rw [splitDelim, if_neg h.1, heq]
    rw [ih h.2] at heq
    cases heq
    rfl

/-- Splitting `s ++ "___" ++ t` cuts exactly at the boundary, provided `s` is
delimiter-free and does not end in an underscore (an underscore ending would
let an earlier, overlapping occurrence of the delimiter win). -/
theorem splitDelim_append (s t : List Char) :
    containsDelim s = false → s.getLast? ≠ some '_' →
    splitDelim (s ++ '_' :: '_' :: '_' :: t) = s :: splitDelim t := by
  induction s with
  | nil => intro _ _; simpa using splitDelim_delim_cons t
  | cons c s ih =>
    intro hs hlast
    cases s with
    | nil =>
      have hc : c ≠ '_' := by simpa using hlast
      show splitDelim (c :: '_' :: '_' :: '_' :: t) = [c] :: splitDelim t
      rw [splitDelim, if_neg (by simp [hc]), splitDelim_delim_cons]
    | cons d s2 =>
      cases s2 with
      | nil =>
        have hd : d ≠ '_' := by simpa using hlast
        have ihd : splitDelim (d :: '_' :: '_' :: '_' :: t) = [d] :: splitDelim t := by
          simpa using ih (by simp [containsDelim]) (by simpa using hlast)
        show splitDelim (c :: d :: '_' :: '_' :: '_' :: t) = [c, d] :: splitDelim t
        rw [splitDelim, if_neg (by simp [hd]), ihd]
      | cons e s3 =>
        simp only [containsDelim, Bool.or_eq_false_iff, decide_eq_false_iff_not] at hs
        have hlast2 : (d :: e :: s3).getLast? ≠ some '_' := by
          rwa [List.getLast?_cons_cons] at hlast
        have ihr := ih hs.2 hlast2
        show splitDelim (c :: d :: e :: (s3 ++ '_' :: '_' :: '_' :: t)) =
          (c :: d :: e :: s3) :: splitDelim t
        rw [splitDelim, if_neg hs.1]
        have hstep : splitDelim (d :: e :: (s3 ++ '_' :: '_' :: '_' :: t)) =
            (d :: e :: s3) :: splitDelim t := by simpa using ihr
        rw [hstep]

/-! ### Claim C5: asymmetric division rule -/

/-- C5: for every composite name with three or more separator-delimited
segments, `divide_names` returns the first segment as server name and all
remaining segments rejoined with the separator as tool name; and for every
name containing no separator, `divide_names` returns `none`. -/
theorem divide_names_first_segment_and_no_separator (combined : String) :
    (∀ a rest, splitDelimS combined = a :: rest → 2 ≤ rest.length →
      divide_names combined = some (a, String.intercalate DELIMITER rest)) ∧
    (containsDelim combined.toList = false → divide_names combined = none) := by
  constructor
  · intro a rest hsplit hlen
    match rest, hlen with
    | b :: c :: rest2, _ =>
      unfold divide_names
      rw [hsplit]
  · intro h
    unfold divide_names splitDelimS
    rw [splitDelim_of_not_contains _ h]
    rfl

/-- Witness for C5: dividing `"a___b___c"` yields `("a", "b___c")`, never
`("a___b", "c")`, and the separator-free `"abc"` divides to `none`. -/
theorem divide_names_first_segment_and_no_separator_witness :
    divide_names "a___b___c" = some ("a", "b___c") ∧ divide_names "abc" = none :=
  ⟨(divide_names_first_segment_and_no_separator "a___b___c").1 "a" ["b", "c"] rfl
    (by decide),
   (divide_names_first_segment_and_no_separator "abc").2 rfl⟩

/-! ### Claim C6: round trip of the composite-name codec -/

/-- Counterexample to C6 as stated: `"a_"` and `"b"` contain no separator,
yet `divide_names (combine_names "a_" "b")` is `("a", "_b")`, not
`("a_", "b")` — the trailing underscore of the server name fuses with the
delimiter, so the leftmost delimiter occurrence starts before the boundary. -/
theorem divide_combine_round_trip_cex :
    containsDelim "a_".toList = false ∧ containsDelim "b".toList = false ∧
    divide_names (combine_names "a_" "b") = some ("a", "_b") ∧
    divide_names (combine_names "a_" "b") ≠ some ("a_", "b") := by
  refine ⟨rfl, rfl, rfl, ?_⟩
  decide

/-- C6 (amended): the round trip `divide_names (combine_names s t) = (s, t)`
holds for all separator-free `s` and `t` provided `s` does not end in an
underscore (otherwise the leftmost occurrence of the separator in the
combined string starts inside `s` and the division point shifts). -/
theorem divide_combine_round_trip (s t : String)
    (hs : containsDelim s.toList = false) (ht : containsDelim t.toList = false)
    (hlast : s.toList.getLast? ≠ some '_') :
    divide_names (combine_names s t) = some (s, t) := by
  have hdata : (combine_names s t).toList = s.toList ++ '_' :: '_' :: '_' :: t.toList := by
    show (s.data ++ ['_', '_', '_']) ++ t.data = s.data ++ '_' :: '_' :: '_' :: t.data
    rw [List.append_assoc]
    rfl
  unfold divide_names splitDelimS
  rw [hdata, splitDelim_append _ _ hs hlast, splitDelim_of_not_contains _ ht]
  rfl

/-- Witness for the amended C6 at `("weather", "forecast")`. -/
theorem divide_combine_round_trip_witness :
    divide_names (combine_names "weather" "forecast") = some ("weather", "forecast") :=
  divide_combine_round_trip "weather" "forecast" rfl rfl (by decide)

/-! ### Claim C7: the normalizer noops on absent or invalid input -/

/-- C7: when the key is absent from the container, or its value is an empty
object, an empty string, a number, or text that parses as neither a JSON
object nor a YAML object, `parse_as_json_and_string_with_key_or_noop`
returns the container with every other entry unchanged — only the key's own
binding may disappear — and never returns an error. -/
theorem parse_noop_on_absent_or_invalid (pj py : String → Option Json)
    (key : String) (m : JsonMap)
    (h : lookupKey key m = none
       ∨ lookupKey key m = some (.obj [])
       ∨ lookupKey key m = some (.str "")
       ∨ (∃ n, lookupKey key m = some (.num n))
       ∨ (∃ s, lookupKey key m = some (.str s) ∧
           ∀ j, (pj s).orElse (fun _ => py s) = some j → j.isObj = false)) :
    parse_as_json_and_string_with_key_or_noop pj py key m = .ok (eraseKey key m) := by
  unfold parse_as_json_and_string_with_key_or_noop
  rcases h with h | h | h | ⟨n, h⟩ | ⟨s, h, hp⟩
  · rw [h, eraseKey_of_lookup_none _ h]
  · rw [h]; rfl
  · rw [h]; rfl
  · rw [h]; rfl
  · rw [h]
    by_cases hse : s = ""
    · subst hse
      rfl
    · cases hj : (pj s).orElse (fun _ => py s) with
      | none => simp [isNonEmptyObj, hse, hj]
      | some j =>
        have hno := hp j hj
        cases j with
        | obj fs => simp [Json.isObj] at hno
        | null => simp [isNonEmptyObj, hse, hj]
        | bool b => simp [isNonEmptyObj, hse, hj]
        | num k => simp [isNonEmptyObj, hse, hj]
        | str s2 => simp [isNonEmptyObj, hse, hj]
        | arr es => simp [isNonEmptyObj, hse, hj]

/-- Witness for C7: a container lacking the key comes back unchanged. -/
theorem parse_noop_on_absent_or_invalid_witness :
    parse_as_json_and_string_with_key_or_noop pjDemo pyDemo "missing"
      [("kept", Json.num 1)] = .ok [("kept", Json.num 1)] :=
  parse_noop_on_absent_or_invalid pjDemo pyDemo "missing" [("kept", Json.num 1)]
    (Or.inl rfl)

/-! ### Claim C1: resolution precedence of the call-tool dispatcher -/

/-- C1: name resolution follows the fixed precedence exact-name runner,
composite-name runner, exact-name worker, composite-name worker, each lookup
short-circuiting at the first match: an exact runner hit carries no suffix
and preempts the composite split; the composite runner lookup fires only on
an exact miss; the worker lookups mirror this inside `handle_worker_call`;
the worker namespace is consulted exactly when the runner resolution
returned a clean miss, so the dispatcher never acts on a runner match and a
worker match for the same request (when the runner resolution is anything
but a clean miss, the outcome does not depend on the worker namespace at
all). -/
theorem call_tool_resolution_precedence (pj py : String → Option Json)
    (fr : String → Except String (Option Runner))
    (fw : String → Except String (Option WorkerData))
    (name : String) (args : Option JsonMap) :
    (∀ r, fr name = .ok (some r) →
      find_runner_by_name_with_mcp fr name = .ok (some (r, none))) ∧
    (∀ s t r, fr name = .ok none → divide_names name = some (s, t) →
      fr s = .ok (some r) →
      find_runner_by_name_with_mcp fr name = .ok (some (r, some t))) ∧
    (∀ w, fw name = .ok (some w) →
      find_worker_by_name_with_mcp fw name = .ok (some (w, none))) ∧
    (∀ s t w, fw name = .ok none → divide_names name = some (s, t) →
      fw s = .ok (some w) →
      find_worker_by_name_with_mcp fw name = .ok (some (w, some t))) ∧
    (find_runner_by_name_with_mcp fr name = .ok none →
      call_tool pj py fr fw ⟨name, args⟩ = handle_worker_call fw ⟨name, args⟩) ∧
    (find_runner_by_name_with_mcp fr name ≠ .ok none →
      ∀ fw', call_tool pj py fr fw ⟨name, args⟩ = call_tool pj py fr fw' ⟨name, args⟩) := by
  refine ⟨?_, ?_, ?_, ?_, ?_, ?_⟩
  · intro r h
    unfold find_runner_by_name_with_mcp
    rw [h]
  · intro s t r h1 h2 h3
    unfold find_runner_by_name_with_mcp
    rw [h1, h2]
    show Except.map _ (fr s) = _
    rw [h3]
    rfl
  · intro w h
    unfold find_worker_by_name_with_mcp
    rw [h]
  · intro s t w h1 h2 h3
    unfold find_worker_by_name_with_mcp
    rw [h1, h2]
    show Except.map _ (fw s) = _
    rw [h3]
    rfl
  · intro h
    unfold call_tool
    rw [h]
  · intro h fw'
    unfold call_tool
    cases hres : find_runner_by_name_with_mcp fr name with
    | error e => rfl
    | ok o =>
      cases o with
      | none => exact absurd hres h
      | some p => rfl

/-- Witness for C1: in the concrete catalog, `"echo"` resolves as an exact
runner with no suffix, and `"weather___forecast"` resolves through the
composite fallback to the `"weather"` runner with suffix `"forecast"`. -/
theorem call_tool_resolution_precedence_witness :
    find_runner_by_name_with_mcp frDemo "echo" =
      .ok (some (⟨some 1, some rdEcho⟩, none)) ∧
    find_runner_by_name_with_mcp frDemo "weather___forecast" =
      .ok (some (⟨some 2, some rdWeather⟩, some "forecast")) :=
  ⟨(call_tool_resolution_precedence pjDemo pyDemo frDemo fwDemo "echo" none).1
    ⟨some 1, some rdEcho⟩ rfl,
   (call_tool_resolution_precedence pjDemo pyDemo frDemo fwDemo
      "weather___forecast" none).2.1 "weather" "forecast"
    ⟨some 2, some rdWeather⟩ rfl rfl rfl⟩

/-! ### Claim C2: a malformed arguments schema and the tool listing

The branch selection and the two `add` calls come from the source; the
combiner itself is spec-modelled (its module is outside the verified slice).
Under that model a failed `add` is absorbed by `.ok()` and combination never
fails, so the entry is not dropped: it still contributes one tool, merely
without an `"arguments"` property. -/

/-- Auxiliary for C2: a standard entry whose arguments schema text fails to
parse still projects to one tool; its combined schema's properties hold at
most a `"settings"` entry and never an `"arguments"` entry. -/
theorem convert_normal_function_bad_args (pj : String → Option Json)
    (tool : FunctionSpecs) (f : FunctionSchema)
    (h3 : tool.schema = some (.SingleSchema f)) (h4 : pj f.arguments = none) :
    ∃ props, convert_normal_function pj tool =
        some ⟨tool.name, tool.description,
          [("type", .str "object"), ("properties", .obj props)]⟩ ∧
      lookupKey "arguments" props = none := by
  unfold convert_normal_function
  rw [h3]
  cases hfs : f.settings with
  | none =>
    refine ⟨[], ?_, rfl⟩
    simp [hfs, add_schema_from_string, h4, generate_combined_schema]
  | some s =>
    cases hps : pj s with
    | none =>
      refine ⟨[], ?_, rfl⟩
      simp [hfs, add_schema_from_string, h4, hps, generate_combined_schema]
    | some js =>
      refine ⟨[("settings", annotateSchema js (some "Tool init settings"))], ?_, ?_⟩
      · simp [hfs, add_schema_from_string, h4, hps, generate_combined_schema]
      · simp [lookupKey]

/-- Counterexample to C2 as stated: in a catalog of two standard entries
where `"bad"` carries a malformed arguments schema text, the listing still
contains a tool for `"bad"` — the entry is not dropped. -/
theorem malformed_arguments_entry_dropped_cex :
    (convert_functions_to_mcp_tools pjDemo pyDemo [goodSpec, badSpec]).map
      (fun tl => tl.name) = ["good", "bad"] ∧
    (convert_functions_to_mcp_tools pjDemo pyDemo [goodSpec, badSpec]).map
      (fun tl => tl.name) ≠ ["good"] := by
  exact ⟨rfl, by decide⟩

/-- C2 (amended): a standard catalog entry whose arguments schema text is
malformed JSON still contributes exactly one tool — the parse failure is
logged and absorbed, and the combined schema simply lacks the `"arguments"`
property — while every other entry of the catalog appears unchanged and the
listing as a whole never aborts. -/
theorem malformed_arguments_entry_still_listed (pj py : String → Option Json)
    (tool : FunctionSpecs) (f : FunctionSchema) (xs ys : List FunctionSpecs)
    (h1 : ¬(tool.worker_id = none ∧ tool.runner_type = RunnerType.ReusableWorkflow))
    (h2 : tool.runner_type ≠ RunnerType.McpServer)
    (h3 : tool.schema = some (.SingleSchema f))
    (h4 : pj f.arguments = none) :
    ∃ tl, convert_normal_function pj tool = some tl ∧
      tl.name = tool.name ∧
      lookupKey "arguments"
        (objFields ((lookupKey "properties" tl.input_schema).getD (.obj []))) = none ∧
      convert_functions_to_mcp_tools pj py (xs ++ tool :: ys) =
        convert_functions_to_mcp_tools pj py xs ++
          tl :: convert_functions_to_mcp_tools pj py ys := by
  obtain ⟨props, hconv, hnone⟩ := convert_normal_function_bad_args pj tool f h3 h4
  refine ⟨_, hconv, rfl, ?_, ?_⟩
  · simpa [lookupKey, objFields] using hnone
  · unfold convert_functions_to_mcp_tools
    rw [List.flatMap_append, List.flatMap_cons]
    rw [if_neg h1, if_neg h2, hconv]
    rfl

/-- Witness for the amended C2 at the concrete two-entry catalog. -/
theorem malformed_arguments_entry_still_listed_witness :
    ∃ tl, convert_normal_function pjDemo badSpec = some tl ∧
      tl.name = badSpec.name ∧
      lookupKey "arguments"
        (objFields ((lookupKey "properties" tl.input_schema).getD (.obj []))) = none ∧
      convert_functions_to_mcp_tools pjDemo pyDemo ([goodSpec] ++ badSpec :: []) =
        convert_functions_to_mcp_tools pjDemo pyDemo [goodSpec] ++
          tl :: convert_functions_to_mcp_tools pjDemo pyDemo [] :=
  malformed_arguments_entry_still_listed pjDemo pyDemo badSpec ⟨none, "not json"⟩
    [goodSpec] [] (by decide) (by decide) rfl rfl

/-! ### Claim C3: workflow provisioning and unusable arguments -/

/-- Counterexample to C3 as stated: the request for the reusable-workflow
runner carries `\x7b"arguments": 5\x7d` — an original with no extractable
object at all — yet the call does not fail with invalid-params: the
normalizer noops, and provisioning (worker find-or-create) is attempted with
the residual empty document. -/
theorem workflow_no_extractable_object_still_provisions_cex :
    call_tool pjDemo pyDemo frDemo fwDemo
        ⟨"make_workflow", some [("arguments", Json.num 5)]⟩ =
      .provision 3 rdWorkflow "make_workflow" "" [] ∧
    Dispatch.provision 3 rdWorkflow "make_workflow" "" [] ≠ Dispatch.invalidParams :=
  ⟨rfl, fun h => Dispatch.noConfusion h⟩

/-- C3 (amended): for a call resolved to a reusable-workflow runner, the
protocol-level invalid-params failure — with no worker find-or-create
attempted — occurs exactly when the request carries no argument map at all;
whenever an argument map is present, even one from which no object can be
extracted, normalization never fails and provisioning proceeds with the
normalized document. -/
theorem workflow_invalid_params_iff_arguments_absent (pj py : String → Option Json)
    (fr : String → Except String (Option Runner))
    (fw : String → Except String (Option WorkerData))
    (name : String) (args : Option JsonMap) (rid : Int) (rdata : RunnerData)
    (hfind : fr name = .ok (some ⟨some rid, some rdata⟩))
    (htype : rdata.runner_type = RunnerType.ReusableWorkflow) :
    (args = none → call_tool pj py fr fw ⟨name, args⟩ = .invalidParams) ∧
    (∀ m, args = some m → ∃ nm ds df,
      call_tool pj py fr fw ⟨name, args⟩ = .provision rid rdata nm ds df) := by
  have hres : find_runner_by_name_with_mcp fr name =
      .ok (some (⟨some rid, some rdata⟩, none)) := by
    unfold find_runner_by_name_with_mcp
    rw [hfind]
  constructor
  · intro ha
    subst ha
    unfold call_tool
    simp only [hres]
    rw [if_pos htype]
    rfl
  · intro m ha
    subst ha
    unfold call_tool
    simp only [hres]
    rw [if_pos htype]
    obtain ⟨m3, h3⟩ := parse_arguments_isOk pj py m
    simp only [handle_reusable_workflow, Option.bind, h3, Except.toOption]
    exact ⟨_, _, _, rfl⟩

/-- Witness for the amended C3: calling the reusable-workflow runner with no
arguments at all yields the invalid-params protocol error. -/
theorem workflow_invalid_params_iff_arguments_absent_witness :
    call_tool pjDemo pyDemo frDemo fwDemo ⟨"make_workflow", none⟩ =
      Dispatch.invalidParams :=
  (workflow_invalid_params_iff_arguments_absent pjDemo pyDemo frDemo fwDemo
    "make_workflow" none 3 rdWorkflow rfl rfl).1 rfl

/-! ### Claim C4: the federated enqueue payload -/

/-- Auxiliary for C4: `handle_runner_call` on a federated MCP runner shapes
the enqueue payload as `tool_name` plus the JSON-string serialization of the
whole incoming argument object. -/
theorem handle_runner_call_mcp (nm : String) (args : JsonMap) (r : Runner)
    (d : RunnerData) (t : Option String)
    (h4 : r.data = some d) (h5 : d.runner_type = RunnerType.McpServer) :
    handle_runner_call ⟨nm, some args⟩ r t =
      .enqueueRunner d.name (lookupKey "settings" args)
        (.obj [("tool_name", optStrToJson t),
               ("arg_json", .str (Json.render (.obj args)))]) := by
  unfold handle_runner_call prepare_runner_call_arguments runnerIsMcp
  rw [h4]
  simp [h5]

/-- C4: a call resolved through the composite split to a runner of the
federated MCP-server category with suffix `t` enqueues the payload
`\x7b"tool_name": t, "arg_json": s\x7d` where `s` is the JSON-string
serialization of the whole incoming argument object, not just its
`"arguments"` sub-field. -/
theorem mcp_runner_enqueue_payload (pj py : String → Option Json)
    (fr : String → Except String (Option Runner))
    (fw : String → Except String (Option WorkerData))
    (name server t : String) (args : JsonMap) (r : Runner) (d : RunnerData)
    (h1 : fr name = .ok none) (h2 : divide_names name = some (server, t))
    (h3 : fr server = .ok (some r)) (h4 : r.data = some d)
    (h5 : d.runner_type = RunnerType.McpServer) :
    call_tool pj py fr fw ⟨name, some args⟩ =
      .enqueueRunner d.name (lookupKey "settings" args)
        (.obj [("tool_name", .str t),
               ("arg_json", .str (Json.render (.obj args)))]) := by
  obtain ⟨ido, dato⟩ := r
  have hdato : dato = some d := h4
  subst hdato
  have hres : find_runner_by_name_with_mcp fr name =
      .ok (some (⟨ido, some d⟩, some t)) := by
    unfold find_runner_by_name_with_mcp
    rw [h1, h2]
    show Except.map _ (fr server) = _
    rw [h3]
    rfl
  have hmcp := handle_runner_call_mcp name args ⟨ido, some d⟩ d (some t) rfl h5
  cases ido with
  | some i =>
    unfold call_tool
    simp only [hres]
    rw [if_neg (by simp [h5])]
    exact hmcp
  | none =>
    unfold call_tool
    simp only [hres]
    exact hmcp

/-- Witness for C4: `call_tool("weather___forecast", \x7b"city":"Tokyo"\x7d)`
enqueues `\x7b"tool_name":"forecast","arg_json":"\x7b\"city\":\"Tokyo\"\x7d"\x7d`. -/
theorem mcp_runner_enqueue_payload_witness :
    call_tool pjDemo pyDemo frDemo fwDemo
        ⟨"weather___forecast", some [("city", Json.str "Tokyo")]⟩ =
      .enqueueRunner "weather" none
        (.obj [("tool_name", .str "forecast"),
               ("arg_json", .str "\x7b\"city\":\"Tokyo\"\x7d")]) :=
  mcp_runner_enqueue_payload pjDemo pyDemo frDemo fwDemo
    "weather___forecast" "weather" "forecast" [("city", Json.str "Tokyo")]
    ⟨some 2, some rdWeather⟩ rdWeather rfl rfl rfl rfl rfl

/-! ### Claim C8: the unconditional unwrap of the runner payload -/

/-- C8: a resolved runner whose payload is absent falls through the
reusable-workflow arm (which alone requires the payload) into
`handle_runner_call`, where building the enqueue target name unconditionally
unwraps the payload: the call ends in a panic, not a protocol error, so the
totality of `call_tool` silently presupposes that every resolved runner
carries its payload. -/
theorem runner_missing_data_panics (pj py : String → Option Json)
    (fr : String → Except String (Option Runner))
    (fw : String → Except String (Option WorkerData))
    (name : String) (args : Option JsonMap) (r : Runner)
    (h1 : fr name = .ok (some r)) (h2 : r.data = none) :
    call_tool pj py fr fw ⟨name, args⟩ = .panic := by
  obtain ⟨ido, dato⟩ := r
  have hdato : dato = none := h2
  subst hdato
  have hres : find_runner_by_name_with_mcp fr name =
      .ok (some (⟨ido, none⟩, none)) := by
    unfold find_runner_by_name_with_mcp
    rw [h1]
  cases ido with
  | some i =>
    unfold call_tool
    simp only [hres]
    rfl
  | none =>
    unfold call_tool
    simp only [hres]
    rfl

/-- Witness for C8: the `"broken"` runner of the concrete catalog carries no
payload and its invocation panics. -/
theorem runner_missing_data_panics_witness :
    call_tool pjDemo pyDemo frDemo fwDemo ⟨"broken", some []⟩ = Dispatch.panic :=
  runner_missing_data_panics pjDemo pyDemo frDemo fwDemo "broken" (some [])
    ⟨some 4, none⟩ rfl rfl

/-! ### Claim C9: the suffix is discarded for reusable-workflow targets -/

/-- C9: when a name misses every runner exactly but its composite-split
server prefix names a complete reusable-workflow runner, the federated
suffix is silently discarded: the call is dispatched to workflow
provisioning exactly as if the runner had been addressed by its exact name,
so the suffix never influences the created worker. -/
theorem composite_reusable_workflow_ignores_suffix (pj py : String → Option Json)
    (fr : String → Except String (Option Runner))
    (fw : String → Except String (Option WorkerData))
    (name server t : String) (args : Option JsonMap) (rid : Int) (rdata : RunnerData)
    (h1 : fr name = .ok none) (h2 : divide_names name = some (server, t))
    (h3 : fr server = .ok (some ⟨some rid, some rdata⟩))
    (h4 : rdata.runner_type = RunnerType.ReusableWorkflow) :
    call_tool pj py fr fw ⟨name, args⟩ =
      handle_reusable_workflow pj py ⟨name, args⟩ rid rdata ∧
    call_tool pj py fr fw ⟨name, args⟩ = call_tool pj py fr fw ⟨server, args⟩ := by
  have hres : find_runner_by_name_with_mcp fr name =
      .ok (some (⟨some rid, some rdata⟩, some t)) := by
    unfold find_runner_by_name_with_mcp
    rw [h1, h2]
    show Except.map _ (fr server) = _
    rw [h3]
    rfl
  have hres2 : find_runner_by_name_with_mcp fr server =
      .ok (some (⟨some rid, some rdata⟩, none)) := by
    unfold find_runner_by_name_with_mcp
    rw [h3]
  have hmain : call_tool pj py fr fw ⟨name, args⟩ =
      handle_reusable_workflow pj py ⟨name, args⟩ rid rdata := by
    unfold call_tool
    simp only [hres]
    rw [if_pos h4]
  have hexact : call_tool pj py fr fw ⟨server, args⟩ =
      handle_reusable_workflow pj py ⟨server, args⟩ rid rdata := by
    unfold call_tool
    simp only [hres2]
    rw [if_pos h4]
  refine ⟨hmain, ?_⟩
  rw [hmain, hexact]
  rfl

/-- Witness for C9: `"make_workflow___ignored"` provisions exactly like
`"make_workflow"`. -/
theorem composite_reusable_workflow_ignores_suffix_witness :
    call_tool pjDemo pyDemo frDemo fwDemo ⟨"make_workflow___ignored", some []⟩ =
      call_tool pjDemo pyDemo frDemo fwDemo ⟨"make_workflow", some []⟩ :=
  (composite_reusable_workflow_ignores_suffix pjDemo pyDemo frDemo fwDemo
    "make_workflow___ignored" "make_workflow" "ignored" (some []) 3 rdWorkflow
    rfl rfl rfl rfl).2

/-! ### Claim C10: the settings override is extracted before the branch -/

/-- C10: the settings override handed to the enqueue is always the request's
top-level `"settings"` value, computed before and independently of the
runner-category branch; for a federated MCP target that same value also
rides inside the serialized `arg_json` string, which serializes the whole
incoming argument map (of which the `"settings"` binding is an entry). -/
theorem settings_extracted_before_branch (nm : String) (args : JsonMap)
    (runner : Runner) (sfx : Option String) :
    (prepare_runner_call_arguments args runner sfx).1 = lookupKey "settings" args ∧
    (∀ v, lookupKey "settings" args = some v → ("settings", v) ∈ args) ∧
    (runnerIsMcp runner = true →
      (prepare_runner_call_arguments args runner sfx).2 =
        .obj [("tool_name", optStrToJson sfx),
              ("arg_json", .str (Json.render (.obj args)))]) ∧
    (∀ d, runner.data = some d →
      handle_runner_call ⟨nm, some args⟩ runner sfx =
        .enqueueRunner d.name (lookupKey "settings" args)
          (prepare_runner_call_arguments args runner sfx).2) := by
  refine ⟨rfl, fun v h => lookupKey_mem _ h, ?_, ?_⟩
  · intro hmcp
    unfold prepare_runner_call_arguments
    rw [if_pos hmcp]
  · intro d hd
    unfold handle_runner_call
    rw [hd]
    rfl

/-- Witness for C10: with `"settings"` present in the incoming object, the
federated payload carries it both as the separate override and inside the
serialized argument string. -/
theorem settings_extracted_before_branch_witness :
    (prepare_runner_call_arguments
        [("settings", Json.num 7), ("city", Json.str "Tokyo")]
        ⟨some 2, some rdWeather⟩ (some "forecast")).1 = some (Json.num 7) ∧
    (prepare_runner_call_arguments
        [("settings", Json.num 7), ("city", Json.str "Tokyo")]
        ⟨some 2, some rdWeather⟩ (some "forecast")).2 =
      .obj [("tool_name", .str "forecast"),
            ("arg_json", .str "\x7b\"settings\":7,\"city\":\"Tokyo\"\x7d")] :=
  ⟨(settings_extracted_before_branch "weather___forecast"
      [("settings", Json.num 7), ("city", Json.str "Tokyo")]
      ⟨some 2, some rdWeather⟩ (some "forecast")).1,
   (settings_extracted_before_branch "weather___forecast"
      [("settings", Json.num 7), ("city", Json.str "Tokyo")]
      ⟨some 2, some rdWeather⟩ (some "forecast")).2.2.1 rfl⟩

end McpProxy
